import Mathlib

/-!
Verification of the `duplex.file_io` content-discovery layer of the pupyl
repository (src/duplex/file_io.py): protocol inference, content fetching,
file-type inference, codec-aware scanners, the scan dispatcher and the
progress relay.

The embedding is a shallow one.  The external world (local filesystem,
HTTP transport, the byte-pattern classifier `FileType.guess_file_type`,
the name-based guesser `mimetypes.guess_type`, the CSV grammar, and the
gzip/bzip2/xz/zip stream readers) is a record of pure functions `Env`:
the spec's section 6 declares all of these as out-of-scope collaborators
consumed through simple function contracts.  Text content is modelled as
`List Char`; lazily produced sequences (Python generators) are modelled
by their complete execution trace `GenRun`: the list of content accesses
performed, the list of items yielded, and the terminal outcome (normal
exhaustion or an exception raised on the pull after the last item).
-/

/-- Errors of the layer.  `fileTypeNotSupportedYet` and
`fileScanNotPossible` are the exceptions from `duplex.exceptions`; the
remaining constructors stand for the propagated built-in exceptions
(`IsADirectoryError`, `FileNotFoundError`, `PermissionError`, transport
failures of `urlopen`). -/
inductive Err where
  | fileTypeNotSupportedYet
  | fileScanNotPossible
  | isADirectoryError
  | fileNotFound
  | permissionDenied
  | transportError
deriving DecidableEq

/-- The `Protocols` enumeration of src/duplex/file_io.py. -/
inductive Protocols where
  | UNKNOWN
  | HTTP
  | FILE
deriving DecidableEq

/-- One content access performed during a run: a local filesystem read
(`open`, `gzip.open`, `bz2.open`, `lzma.open`, `zipfile.ZipFile`,
`os.walk`) or a remote HTTP GET (`urlopen`). -/
inductive Access where
  | loc (path : String)
  | http (url : String)
deriving DecidableEq

/-- An item yielded by a scan: a CSV row (ordered field list, from
`csv.reader`) or a plain string (a decompressed line or a file path). -/
inductive Item where
  | row (fields : List String)
  | str (s : String)
deriving DecidableEq

/-- Result of `FileIo.get`: file bytes, or the `Protocols.UNKNOWN`
sentinel returned when the protocol could not be resolved. -/
inductive GetRes where
  | content (bytes : List Char)
  | unknownSentinel
deriving DecidableEq

/-- The external world, per the collaborator contracts of the spec:
filesystem existence and reads, HTTP GET, the byte classifier, the
name-based type guesser, the CSV grammar, the compression stream
readers, and directory traversal. -/
structure Env where
  /-- `os.path.exists`. -/
  pathExists : String → Bool
  /-- `open(path, 'rb').read()`: full contents or a filesystem error
  (`IsADirectoryError` when the path is a directory). -/
  localRead : String → Except Err (List Char)
  /-- `urlopen(url).read()`: full body or a transport error. -/
  httpRead : String → Except Err (List Char)
  /-- Modelled from the spec: `FileType.guess_file_type` of
  `duplex/file_types.py` is not under src/; section 6 of the spec gives
  its contract `classify(bytes) -> tag-or-none`.  The boolean is the
  `mimetype` flag selecting the returned representation; `none` stands
  for the classifier raising `FileTypeNotSupportedYet`. -/
  classify : List Char → Bool → Option String
  /-- `mimetypes.guess_type(uri)[0]`: a `type/subtype` string or `None`. -/
  guessType : String → Option String
  /-- The CSV grammar (`csv.reader`) applied to one text line. -/
  csvParse : List Char → List String
  /-- `gzip.open(path, 'rt').read()`: decompressed text of a local file,
  or the error raised on opening (a URL string is not a local path). -/
  gzipText : String → Except Err (List Char)
  /-- `bz2.open(path, 'rt').read()`. -/
  bz2Text : String → Except Err (List Char)
  /-- `lzma.open(path, 'rt').read()`. -/
  xzText : String → Except Err (List Char)
  /-- `zipfile.ZipFile(path)`: the members of a local archive, in
  archive-listing order (`namelist`), each with its byte content. -/
  zipArchive : String → Except Err (List (String × List Char))
  /-- `os.walk(path)`: the `(root, files)` pairs of the directory tree,
  in filesystem traversal order. -/
  walk : String → List (String × List String)
  /-- `os.path.abspath`. -/
  abspath : String → String

/-- Characters CPython's `urllib.parse` accepts inside a URL scheme. -/
def schemeChars : List Char :=
  "abcdefghijklmnopqrstuvwxyzABCDEFGHIJKLMNOPQRSTUVWXYZ0123456789+-.".data

/-- Index of the first colon, as `str.find(':')` (None for absent). -/
def findColon : List Char → Option Nat
  | [] => none
  | c :: rest => if c = ':' then some 0 else (findColon rest).map (· + 1)

/-- The `scheme` field of `urllib.parse.urlparse`: the lowercased text
before the first colon when that colon is at a positive index and every
character before it is a scheme character; otherwise the empty string. -/
def urlSchemeList (l : List Char) : List Char :=
  match findColon l with
  | some i =>
      if 0 < i ∧ (l.take i).all (fun c => schemeChars.contains c) then
        (l.take i).map Char.toLower
      else []
  | none => []

/-- Python `str.startswith`. -/
def pyStartswith (s p : String) : Bool :=
  s.data.take p.data.length = p.data

namespace FileIo

/-- `FileIO._infer_protocol`: HTTP-family URL scheme first, then the
`file` prefix marker or filesystem existence, else unknown. -/
def inferProtocol (env : Env) (uri : String) : Protocols :=
  if pyStartswith ⟨urlSchemeList uri.data⟩ "http" then Protocols.HTTP
  else if pyStartswith uri "file" || env.pathExists uri then Protocols.FILE
  else Protocols.UNKNOWN

/-- `FileIO.get`: dispatch on the inferred protocol; local read for
FILE, HTTP GET for HTTP, the `Protocols.UNKNOWN` sentinel otherwise.
The first component lists the content accesses performed. -/
def get (env : Env) (uri : String) : List Access × Except Err GetRes :=
  if inferProtocol env uri = Protocols.FILE then
    ([Access.loc uri], (env.localRead uri).map GetRes.content)
  else if inferProtocol env uri = Protocols.HTTP then
    ([Access.http uri], (env.httpRead uri).map GetRes.content)
  else
    ([], Except.ok GetRes.unknownSentinel)

/-- `file_type.split('/')[1]` on a `type/subtype` media string: the text
between the first slash and the next (real `mimetypes` output always
contains exactly one slash; with no slash Python would raise, modelled
as the empty list). -/
def pySplitSnd (l : List Char) : List Char :=
  match l.dropWhile (fun c => c ≠ '/') with
  | [] => []
  | _ :: rest => rest.takeWhile (fun c => c ≠ '/')

/-- The short tag derived from a media type by the extension fallback of
`infer_file_type_from_uri`: `file_type.split('/')[1].upper()`. -/
def subtypeTag (mime : String) : String :=
  ⟨(pySplitSnd mime.data).map Char.toUpper⟩

/-- The `except FileTypeNotSupportedYet` fallback of
`infer_file_type_from_uri`: guess from the location name; return the
media type or its uppercased subtype per the `mimetype` flag, or re-fail
with `FileTypeNotSupportedYet`. -/
def fallbackGuess (env : Env) (uri : String) (mimetype : Bool) :
    Except Err String :=
  match env.guessType uri with
  | some m => Except.ok (if mimetype then m else subtypeTag m)
  | none => Except.error Err.fileTypeNotSupportedYet

/-- `FileIO.infer_file_type_from_uri`: fetch; the Unknown sentinel and a
classifier failure both fall to the extension-based fallback (the method
catches its own `FileTypeNotSupportedYet`); other fetch errors
propagate.  Returns the accesses performed and the outcome. -/
def inferFileTypeFromUri (env : Env) (uri : String) (mimetype : Bool) :
    List Access × Except Err String :=
  match get env uri with
  | (ev, Except.error Err.fileTypeNotSupportedYet) =>
      (ev, fallbackGuess env uri mimetype)
  | (ev, Except.error e) => (ev, Except.error e)
  | (ev, Except.ok GetRes.unknownSentinel) => (ev, fallbackGuess env uri mimetype)
  | (ev, Except.ok (GetRes.content b)) =>
      match env.classify b mimetype with
      | some tag => (ev, Except.ok tag)
      | none => (ev, fallbackGuess env uri mimetype)

end FileIo

/-- The complete execution trace of one lazily produced sequence (one
Python generator run): the content accesses performed, the items
yielded in order, and `err = some e` when the run ends by raising `e`
on the pull after the last yielded item (`none` = normal exhaustion). -/
structure GenRun where
  events : List Access
  items : List Item
  err : Option Err
deriving DecidableEq

/-- Prefix a run with accesses already performed before it started. -/
def GenRun.withPre (ev : List Access) (g : GenRun) : GenRun :=
  ⟨ev ++ g.events, g.items, g.err⟩

/-- Python `str.splitlines` restricted to `\n` terminators: the lines
without their terminators, with no phantom empty line after a final
newline. -/
def splitlinesAux : List Char → List Char → List (List Char)
  | [], acc => if acc.isEmpty then [] else [acc.reverse]
  | c :: rest, acc =>
      if c = '\n' then acc.reverse :: splitlinesAux rest []
      else splitlinesAux rest (c :: acc)

/-- Python `str.splitlines` (newline-only model). -/
def splitlines (l : List Char) : List (List Char) :=
  splitlinesAux l []

/-- Iterating a Python text file object: the lines of the text, each
keeping its trailing newline (the last line only if the text ends with
one). -/
def pyLinesAux : List Char → List Char → List (List Char)
  | [], acc => if acc.isEmpty then [] else [acc.reverse]
  | c :: rest, acc =>
      if c = '\n' then (c :: acc).reverse :: pyLinesAux rest []
      else pyLinesAux rest (c :: acc)

/-- Lines of a text, terminators kept (Python file iteration). -/
def pyLines (l : List Char) : List (List Char) :=
  pyLinesAux l []

/-- `row.replace('\n', '')`: remove every newline character. -/
def stripNL (l : List Char) : List Char :=
  l.filter (fun c => c ≠ '\n')

namespace FileIo

/-- `FileIO.scan_csv`: fetch, fail on the Unknown sentinel, decode,
split into lines, parse each line with the CSV grammar and yield the
rows.  A generator: the failure is raised on the first pull. -/
def scan_csv (env : Env) (uri : String) : GenRun :=
  match get env uri with
  | (ev, Except.error e) => ⟨ev, [], some e⟩
  | (ev, Except.ok GetRes.unknownSentinel) =>
      ⟨ev, [], some Err.fileTypeNotSupportedYet⟩
  | (ev, Except.ok (GetRes.content b)) =>
      ⟨ev, (splitlines b).map (fun l => Item.row (env.csvParse l)), none⟩

/-- `FileIO.scan_csv_gzip`: open the location as a local gzip text
stream and yield each line with newlines removed. -/
def scan_csv_gzip (env : Env) (uri : String) : GenRun :=
  match env.gzipText uri with
  | Except.error e => ⟨[Access.loc uri], [], some e⟩
  | Except.ok content =>
      ⟨[Access.loc uri],
       (pyLines content).map (fun l => Item.str ⟨stripNL l⟩), none⟩

/-- `FileIO.scan_csv_bzip2`: local bzip2 text stream, same shape. -/
def scan_csv_bzip2 (env : Env) (uri : String) : GenRun :=
  match env.bz2Text uri with
  | Except.error e => ⟨[Access.loc uri], [], some e⟩
  | Except.ok content =>
      ⟨[Access.loc uri],
       (pyLines content).map (fun l => Item.str ⟨stripNL l⟩), none⟩

/-- `FileIO.scan_csv_xz`: local lzma text stream, same shape. -/
def scan_csv_xz (env : Env) (uri : String) : GenRun :=
  match env.xzText uri with
  | Except.error e => ⟨[Access.loc uri], [], some e⟩
  | Except.ok content =>
      ⟨[Access.loc uri],
       (pyLines content).map (fun l => Item.str ⟨stripNL l⟩), none⟩

/-- `FileIO.scan_csv_zip`: enumerate the members of the local archive
in listing order; for each member yield each contained line, decoded and
with newlines removed. -/
def scan_csv_zip (env : Env) (uri : String) : GenRun :=
  match env.zipArchive uri with
  | Except.error e => ⟨[Access.loc uri], [], some e⟩
  | Except.ok members =>
      ⟨[Access.loc uri],
       members.flatMap (fun m => (pyLines m.2).map (fun l => Item.str ⟨stripNL l⟩)),
       none⟩

/-- The directory branch of `FileIO.scan`: `os.walk` the tree and yield
`os.path.abspath(f'{root}/{ffile}')` for every contained file. -/
def walkPaths (env : Env) (uri : String) : List Item :=
  (env.walk uri).flatMap
    (fun rf => rf.2.map (fun f => Item.str (env.abspath (rf.1 ++ "/" ++ f))))

/-- The tag-comparison chain of `FileIO.scan`: `'CSV'`/`'PLAIN'` run
the plain/CSV scanner, `'GZP'`/`'ZIP'`/`'BZ2'`/`'LXZ'` the matching
decompressing scanner, and any other tag raises
`FileScanNotPossible`. -/
def dispatchTag (env : Env) (uri : String) (t : String) : GenRun :=
  if t = "CSV" ∨ t = "PLAIN" then scan_csv env uri
  else if t = "GZP" then scan_csv_gzip env uri
  else if t = "ZIP" then scan_csv_zip env uri
  else if t = "BZ2" then scan_csv_bzip2 env uri
  else if t = "LXZ" then scan_csv_xz env uri
  else ⟨[], [], some Err.fileScanNotPossible⟩

/-- The `try` body of `FileIO.scan`: infer the type (with the default
`mimetype=False`), then dispatch on the tag string. -/
def scanTry (env : Env) (uri : String) : GenRun :=
  match inferFileTypeFromUri env uri false with
  | (ev, Except.error e) => ⟨ev, [], some e⟩
  | (ev, Except.ok t) => GenRun.withPre ev (dispatchTag env uri t)

/-- `FileIO.scan`: run the `try` body; `except IsADirectoryError`
switches to the directory walk, appending the walked paths after any
items already yielded.  Every other outcome passes through. -/
def scan (env : Env) (uri : String) : GenRun :=
  let r := scanTry env uri
  if r.err = some Err.isADirectoryError then
    ⟨r.events ++ [Access.loc uri], r.items ++ walkPaths env uri, none⟩
  else r

end FileIo

/-- The scanner the specification declares for each inferred tag: the
plain/CSV scanner for `CSV` and `PLAIN`, and the matching decompressing
scanner for the gzip (`GZP`), `ZIP`, bzip2 (`BZ2`) and xz (`LXZ`) tags;
no scanner is declared for any other tag. -/
def declaredScanner (t : String) : Option (Env → String → GenRun) :=
  if t = "CSV" ∨ t = "PLAIN" then some FileIo.scan_csv
  else if t = "GZP" then some FileIo.scan_csv_gzip
  else if t = "ZIP" then some FileIo.scan_csv_zip
  else if t = "BZ2" then some FileIo.scan_csv_bzip2
  else if t = "LXZ" then some FileIo.scan_csv_xz
  else none

/-- Result of one pull (`next()`) on a generator run. -/
inductive PullRes where
  | item (i : Item)
  | raiseErr (e : Err)
  | stopIteration
deriving DecidableEq

/-- The behaviour of the n-th pull on a generator run: the n-th item
while items remain; on the pull after the last item, the recorded error
if the run failed there, else `StopIteration`; after that the generator
is closed and every pull is `StopIteration`. -/
def GenRun.pull (g : GenRun) (n : Nat) : PullRes :=
  if h : n < g.items.length then PullRes.item (g.items.get ⟨n, h⟩)
  else if n = g.items.length then
    match g.err with
    | some e => PullRes.raiseErr e
    | none => PullRes.stopIteration
  else PullRes.stopIteration

/-- An environment in which nothing exists and every external
collaborator fails: the base for the concrete test environments. -/
def env0 : Env where
  pathExists := fun _ => false
  localRead := fun _ => Except.error Err.fileNotFound
  httpRead := fun _ => Except.error Err.transportError
  classify := fun _ _ => none
  guessType := fun _ => none
  csvParse := fun _ => []
  gzipText := fun _ => Except.error Err.fileNotFound
  bz2Text := fun _ => Except.error Err.fileNotFound
  xzText := fun _ => Except.error Err.fileNotFound
  zipArchive := fun _ => Except.error Err.fileNotFound
  walk := fun _ => []
  abspath := fun s => s

/-- A concrete environment for C2: one existing local object. -/
def envC2 : Env := { env0 with pathExists := fun s => s == "/tmp/data.csv" }

/-- A concrete environment for C3: nothing exists, but the name-based
guesser recognizes the `.csv` extension (as the real `mimetypes`
module does). -/
def envC3 : Env :=
  { env0 with
      guessType := fun u => if u == "nofile.csv" then some "text/csv" else none }

/-- A text made of the given lines, each terminated by a newline: the
canonical content of a compressed fixture containing those lines. -/
def unlines (ls : List (List Char)) : List Char :=
  ls.flatMap (fun l => l ++ ['\n'])

/-- The twelve clock glyphs cycled by the imprecise progress mode. -/
def clocks : List Char :=
  "🕛🕐🕑🕒🕓🕔🕕🕖🕗🕘🕙🕚".data

/-- `itertools.cycle(clocks)` truncated by `zip` to the first n pulls. -/
def cycleTake (n : Nat) : List Char :=
  (List.range n).map (fun i => clocks.getD (i % clocks.length) '🕛')

namespace FileIo

/-- `FileIO.progress`.  The iterable is modelled by the list of its
items (the precise mode materializes an unsized iterable into exactly
this list before counting it).  The first component is the sequence of
yielded items; the second is the sequence of percentage values printed
in the precise mode, on the scale 0-100.  The percentage of iteration
`index` is `(index + 1) / count` in the source; the `intmul` scaling
operator (from `addendum.operators`, not under src/) is modelled from
the spec as multiplication by 100, and the Python float quotient as the
exact rational.  The imprecise mode prints item counters, not
percentages, and yields the first components of `zip(iterable,
cycle(clocks))`. -/
def progress {α : Type} (l : List α) (precise : Bool) : List α × List ℚ :=
  if precise then
    (l.enum.map Prod.snd,
     l.enum.map (fun iv => 100 * (((iv.1 : ℚ) + 1) / (l.length : ℚ))))
  else
    ((l.zip (cycleTake l.length)).map Prod.fst, [])

end FileIo

/-- A concrete environment for C1: a local gzip file `f.gz` whose bytes
the classifier recognizes as the gzip tag. -/
def envC1 : Env :=
  { env0 with
      pathExists := fun s => s == "f.gz"
      localRead := fun s =>
        if s == "f.gz" then Except.ok ['g', 'z']
        else Except.error Err.fileNotFound
      classify := fun b _ => if b == ['g', 'z'] then some "GZP" else none
      gzipText := fun s =>
        if s == "f.gz" then Except.ok (unlines [['a'], ['b']])
        else Except.error Err.fileNotFound }

/-- A concrete environment for C7: a local `.bin` file whose bytes the
classifier cannot recognize; the name-based guesser returns the real
`mimetypes` answer for `.bin`, whose subtype tag matches no scanner. -/
def envC7 : Env :=
  { env0 with
      pathExists := fun s => s == "x.bin"
      localRead := fun s =>
        if s == "x.bin" then Except.ok ['\x00', '\x01']
        else Except.error Err.fileNotFound
      guessType := fun u =>
        if u == "x.bin" then some "application/octet-stream" else none }

/-- A concrete environment for C5: `d` is a directory (reading it
raises `IsADirectoryError`) containing the files `a.txt` and `b.csv`. -/
def envDir : Env :=
  { env0 with
      pathExists := fun s => s == "d"
      localRead := fun s =>
        if s == "d" then Except.error Err.isADirectoryError
        else Except.error Err.fileNotFound
      walk := fun s => if s == "d" then [("d", ["a.txt", "b.csv"])] else []
      abspath := fun s => "/abs/" ++ s }

/-- A concrete environment for C6: compressed fixtures with known
lines behind every codec. -/
def envC6 : Env :=
  { env0 with
      gzipText := fun _ => Except.ok (unlines [['a'], ['b', 'c']])
      bz2Text := fun _ => Except.ok (unlines [['a'], ['b', 'c']])
      xzText := fun _ => Except.ok (unlines [['a'], ['b', 'c']])
      zipArchive := fun _ =>
        Except.ok [("m1", unlines [['x']]), ("m2", unlines [['y'], ['z']])] }

/-- A concrete environment for C4: a remote gzip file.  The HTTP GET
performed during inference returns gzip-magic bytes that the classifier
tags as gzip; the gzip scanner then opens the URL string as a local
path, which fails with a not-found error (as `gzip.open` on a URL
does). -/
def envC4 : Env :=
  { env0 with
      httpRead := fun u =>
        if u == "http://h/f.gz" then Except.ok ['\x1f', '\x8b']
        else Except.error Err.transportError
      classify := fun b _ =>
        if b == ['\x1f', '\x8b'] then some "GZP" else none }

theorem urlSchemeList_http_prefix (cs : List Char) :
    urlSchemeList ('h' :: 't' :: 't' :: 'p' :: ':' :: cs) = "http".data := rfl

theorem urlSchemeList_https_prefix (cs : List Char) :
    urlSchemeList ('h' :: 't' :: 't' :: 'p' :: 's' :: ':' :: cs) = "https".data := rfl

theorem data_append_http (rest : String) :
    ("http://" ++ rest).data
      = 'h' :: 't' :: 't' :: 'p' :: ':' :: '/' :: '/' :: rest.data := rfl

theorem data_append_https (rest : String) :
    ("https://" ++ rest).data
      = 'h' :: 't' :: 't' :: 'p' :: 's' :: ':' :: '/' :: '/' :: rest.data := rfl

/-- Claim C2 (amended): protocol resolution follows the decision order
HTTP-family scheme first, then `file` marker or filesystem existence,
else Unknown.  Hence every `http(s)://` string resolves Remote; a local
path that exists and whose text does not parse with an HTTP-family
scheme resolves Local; the empty string resolves Unknown; and a
nonexistent path resolves Unknown provided it does not begin with the
`file` marker and does not parse with an HTTP-family scheme.  (The
original claim's unconditional clauses fail: see the counterexample.) -/
theorem c2_protocol_resolution (env : Env) :
    (∀ rest : String,
        FileIo.inferProtocol env ("http://" ++ rest) = Protocols.HTTP
        ∧ FileIo.inferProtocol env ("https://" ++ rest) = Protocols.HTTP)
    ∧ (∀ p : String, env.pathExists p = true →
        pyStartswith ⟨urlSchemeList p.data⟩ "http" = false →
        FileIo.inferProtocol env p = Protocols.FILE)
    ∧ (env.pathExists "" = false →
        FileIo.inferProtocol env "" = Protocols.UNKNOWN)
    ∧ (∀ p : String, env.pathExists p = false →
        pyStartswith ⟨urlSchemeList p.data⟩ "http" = false →
        pyStartswith p "file" = false →
        FileIo.inferProtocol env p = Protocols.UNKNOWN) := by
  refine ⟨fun rest => ⟨?_, ?_⟩, fun p h1 h2 => ?_, fun h => ?_,
    fun p h1 h2 h3 => ?_⟩
  · unfold FileIo.inferProtocol
    rw [data_append_http, urlSchemeList_http_prefix]
    simp [pyStartswith]
  · unfold FileIo.inferProtocol
    rw [data_append_https, urlSchemeList_https_prefix]
    simp [pyStartswith]
  · simp [FileIo.inferProtocol, h1, h2]
  · have e1 : pyStartswith ⟨urlSchemeList "".data⟩ "http" = false := rfl
    have e2 : pyStartswith "" "file" = false := rfl
    simp [FileIo.inferProtocol, e1, e2, h]
  · simp [FileIo.inferProtocol, h1, h2, h3]

/-- Claim C2 counterexample: `filename.txt` is a relative path that does
not exist on the filesystem, yet protocol resolution yields Local, not
Unknown, because the path begins with the four characters `file` (the
local-file scheme marker test is a plain prefix test on the raw
string). -/
theorem c2_counterexample :
    env0.pathExists "filename.txt" = false
    ∧ FileIo.inferProtocol env0 "filename.txt" ≠ Protocols.UNKNOWN
    ∧ FileIo.inferProtocol env0 "filename.txt" = Protocols.FILE :=
  ⟨rfl, by decide, by decide⟩

theorem get_unknown (env : Env) (uri : String)
    (h : FileIo.inferProtocol env uri = Protocols.UNKNOWN) :
    FileIo.get env uri = ([], Except.ok GetRes.unknownSentinel) := by
  simp [FileIo.get, h]

theorem get_file (env : Env) (uri : String)
    (h : FileIo.inferProtocol env uri = Protocols.FILE) :
    FileIo.get env uri
      = ([Access.loc uri], (env.localRead uri).map GetRes.content) := by
  simp [FileIo.get, h]

theorem get_http (env : Env) (uri : String)
    (h : FileIo.inferProtocol env uri = Protocols.HTTP) :
    FileIo.get env uri
      = ([Access.http uri], (env.httpRead uri).map GetRes.content) := by
  simp [FileIo.get, h]

theorem dispatchTag_of_declared (env : Env) (uri : String) (t : String)
    (sc : Env → String → GenRun) (hs : declaredScanner t = some sc) :
    FileIo.dispatchTag env uri t = sc env uri := by
  unfold declaredScanner at hs
  unfold FileIo.dispatchTag
  split_ifs at hs ⊢ <;> simp_all

theorem dispatchTag_of_none (env : Env) (uri : String) (t : String)
    (hn : declaredScanner t = none) :
    FileIo.dispatchTag env uri t = ⟨[], [], some Err.fileScanNotPossible⟩ := by
  unfold declaredScanner at hn
  unfold FileIo.dispatchTag
  split_ifs at hn ⊢ <;> simp_all

theorem scanTry_of_ok (env : Env) (uri : String) (ev : List Access) (t : String)
    (h : FileIo.inferFileTypeFromUri env uri false = (ev, Except.ok t)) :
    FileIo.scanTry env uri = GenRun.withPre ev (FileIo.dispatchTag env uri t) := by
  unfold FileIo.scanTry
  rw [h]

theorem scanTry_of_error (env : Env) (uri : String) (ev : List Access) (e : Err)
    (h : FileIo.inferFileTypeFromUri env uri false = (ev, Except.error e)) :
    FileIo.scanTry env uri = ⟨ev, [], some e⟩ := by
  unfold FileIo.scanTry
  rw [h]

theorem scan_of_no_dir (env : Env) (uri : String)
    (h : (FileIo.scanTry env uri).err ≠ some Err.isADirectoryError) :
    FileIo.scan env uri = FileIo.scanTry env uri := by
  unfold FileIo.scan
  simp [h]

theorem scan_of_dir (env : Env) (uri : String)
    (h : (FileIo.scanTry env uri).err = some Err.isADirectoryError) :
    FileIo.scan env uri
      = ⟨(FileIo.scanTry env uri).events ++ [Access.loc uri],
         (FileIo.scanTry env uri).items ++ FileIo.walkPaths env uri, none⟩ := by
  unfold FileIo.scan
  simp [h]

/-- Witness for C2 at concrete inputs. -/
theorem c2_witness :
    FileIo.inferProtocol envC2 ("http://" ++ "host/img.jpg") = Protocols.HTTP
    ∧ FileIo.inferProtocol envC2 "/tmp/data.csv" = Protocols.FILE
    ∧ FileIo.inferProtocol envC2 "" = Protocols.UNKNOWN
    ∧ FileIo.inferProtocol envC2 "missing.dat" = Protocols.UNKNOWN :=
  ⟨((c2_protocol_resolution envC2).1 "host/img.jpg").1,
   (c2_protocol_resolution envC2).2.1 "/tmp/data.csv" rfl rfl,
   (c2_protocol_resolution envC2).2.2.1 rfl,
   (c2_protocol_resolution envC2).2.2.2 "missing.dat" rfl rfl rfl⟩

/-- Claim C3 (amended): for a location whose protocol resolves to
Unknown, fetching yields the Unknown sentinel and the primary path of
type inference raises `FileTypeNotSupportedYet`; the method catches its
own failure, so inference fails with `FileTypeNotSupportedYet` only
when the name-based guesser also fails; when the guesser recognizes the
location name, its type is returned instead.  (The original claim's
unconditional failure is refuted by the counterexample.) -/
theorem c3_unknown_protocol_inference (env : Env) (uri : String)
    (h : FileIo.inferProtocol env uri = Protocols.UNKNOWN) :
    (env.guessType uri = none →
      FileIo.inferFileTypeFromUri env uri false
        = ([], Except.error Err.fileTypeNotSupportedYet))
    ∧ (∀ m : String, env.guessType uri = some m →
      FileIo.inferFileTypeFromUri env uri false
        = ([], Except.ok (FileIo.subtypeTag m))) := by
  have hg := get_unknown env uri h
  constructor
  · intro hn
    simp [FileIo.inferFileTypeFromUri, hg, FileIo.fallbackGuess, hn]
  · intro m hm
    simp [FileIo.inferFileTypeFromUri, hg, FileIo.fallbackGuess, hm]

/-- Claim C3 counterexample: `nofile.csv` resolves to the Unknown
protocol (it does not exist and is not a URL), yet
`infer_file_type_from_uri` does not fail: the extension fallback
returns the CSV tag. -/
theorem c3_counterexample :
    FileIo.inferProtocol envC3 "nofile.csv" = Protocols.UNKNOWN
    ∧ FileIo.inferFileTypeFromUri envC3 "nofile.csv" false
        = ([], Except.ok "CSV") :=
  ⟨by decide, rfl⟩

/-- Witness for C3 at concrete inputs: with a guessable name the tag is
returned; with an unguessable one inference fails. -/
theorem c3_witness :
    FileIo.inferFileTypeFromUri envC3 "nofile.csv" false
      = ([], Except.ok (FileIo.subtypeTag "text/csv"))
    ∧ FileIo.inferFileTypeFromUri env0 "nofile.xyz" false
      = ([], Except.error Err.fileTypeNotSupportedYet) :=
  ⟨(c3_unknown_protocol_inference envC3 "nofile.csv" (by decide)).2
      "text/csv" rfl,
   (c3_unknown_protocol_inference env0 "nofile.xyz" (by decide)).1 rfl⟩

/-- Claim C1: when type inference succeeds with tag t and a scanner is
declared for t (plain/CSV for `CSV` and `PLAIN`, the gzip scanner for
the gzip tag, and likewise for zip, bzip2 and xz), the dispatcher runs
exactly that scanner: the scan's trace is the inference trace followed
by that scanner's run, so no item of a differently-declared scanner is
ever yielded. -/
theorem c1_dispatch_consistency (env : Env) (uri : String) (ev : List Access)
    (t : String) (sc : Env → String → GenRun)
    (h : FileIo.inferFileTypeFromUri env uri false = (ev, Except.ok t))
    (hs : declaredScanner t = some sc) :
    FileIo.scanTry env uri = GenRun.withPre ev (sc env uri)
    ∧ ((sc env uri).err ≠ some Err.isADirectoryError →
        FileIo.scan env uri = GenRun.withPre ev (sc env uri)) := by
  have h1 : FileIo.scanTry env uri = GenRun.withPre ev (sc env uri) := by
    rw [scanTry_of_ok env uri ev t h, dispatchTag_of_declared env uri t sc hs]
  refine ⟨h1, fun hne => ?_⟩
  have h2 : (FileIo.scanTry env uri).err ≠ some Err.isADirectoryError := by
    rw [h1]
    simpa [GenRun.withPre] using hne
  rw [scan_of_no_dir env uri h2, h1]

/-- Witness for C1: a local gzip file is dispatched to the gzip
scanner. -/
theorem c1_witness :
    FileIo.scan envC1 "f.gz"
      = GenRun.withPre [Access.loc "f.gz"] (FileIo.scan_csv_gzip envC1 "f.gz") :=
  (c1_dispatch_consistency envC1 "f.gz" [Access.loc "f.gz"] "GZP"
    FileIo.scan_csv_gzip rfl rfl).2 (by decide)

/-- Claim C7: when type inference succeeds with a tag for which no
scanner is declared, the scan yields nothing and fails with
`FileScanNotPossible` — never a silent empty sequence. -/
theorem c7_unmatched_tag (env : Env) (uri : String) (ev : List Access)
    (t : String)
    (h : FileIo.inferFileTypeFromUri env uri false = (ev, Except.ok t))
    (hn : declaredScanner t = none) :
    (FileIo.scan env uri).items = []
    ∧ (FileIo.scan env uri).err = some Err.fileScanNotPossible := by
  have h1 : FileIo.scanTry env uri = ⟨ev, [], some Err.fileScanNotPossible⟩ := by
    rw [scanTry_of_ok env uri ev t h, dispatchTag_of_none env uri t hn]
    simp [GenRun.withPre]
  have h2 : FileIo.scan env uri = FileIo.scanTry env uri :=
    scan_of_no_dir env uri (by rw [h1]; simp)
  rw [h2, h1]
  exact ⟨rfl, rfl⟩

/-- Witness for C7: a `.bin` file of unrecognized bytes is tagged
`OCTET-STREAM` by the extension fallback, and the scan fails with
`FileScanNotPossible` having yielded nothing. -/
theorem c7_witness :
    (FileIo.scan envC7 "x.bin").items = []
    ∧ (FileIo.scan envC7 "x.bin").err = some Err.fileScanNotPossible :=
  c7_unmatched_tag envC7 "x.bin" [Access.loc "x.bin"] "OCTET-STREAM" rfl rfl

/-- Claim C5: scanning a location that is a directory does not fail:
the `IsADirectoryError` raised while fetching for inference is caught,
the tree is walked, and the scan yields exactly the absolute path of
every contained file — all plain strings, one per file, in traversal
order — and no row-records. -/
theorem c5_directory_scan (env : Env) (uri : String)
    (hp : FileIo.inferProtocol env uri = Protocols.FILE)
    (hd : env.localRead uri = Except.error Err.isADirectoryError) :
    (FileIo.scan env uri).items = FileIo.walkPaths env uri
    ∧ (FileIo.scan env uri).err = none
    ∧ (∀ it ∈ (FileIo.scan env uri).items, ∃ s : String, it = Item.str s)
    ∧ (FileIo.scan env uri).items.length
        = ((env.walk uri).flatMap (fun rf => rf.2)).length := by
  have hg : FileIo.get env uri
      = ([Access.loc uri], Except.error Err.isADirectoryError) := by
    rw [get_file env uri hp, hd]
    rfl
  have hi : FileIo.inferFileTypeFromUri env uri false
      = ([Access.loc uri], Except.error Err.isADirectoryError) := by
    simp [FileIo.inferFileTypeFromUri, hg]
  have h1 : FileIo.scanTry env uri
      = ⟨[Access.loc uri], [], some Err.isADirectoryError⟩ :=
    scanTry_of_error env uri _ _ hi
  have h2 := scan_of_dir env uri (by rw [h1])
  rw [h1] at h2
  rw [h2]
  refine ⟨by simp, rfl, ?_, ?_⟩
  · intro it hit
    simp only [List.nil_append, FileIo.walkPaths, List.mem_flatMap,
      List.mem_map] at hit
    obtain ⟨rf, _, f, _, hfe⟩ := hit
    exact ⟨_, hfe.symm⟩
  · simp only [List.nil_append, FileIo.walkPaths, List.length_flatMap]
    refine congrArg List.sum (List.map_congr_left fun rf _ => ?_)
    simp [Function.comp]

/-- Witness for C5: the directory `d` containing `{a.txt, b.csv}`
yields exactly the two absolute paths and zero row-records. -/
theorem c5_witness :
    (FileIo.scan envDir "d").items
        = [Item.str "/abs/d/a.txt", Item.str "/abs/d/b.csv"]
    ∧ (FileIo.scan envDir "d").err = none
    ∧ (FileIo.scan envDir "d").items.length = 2 := by
  obtain ⟨h1, h2, -, -⟩ := c5_directory_scan envDir "d" (by decide) rfl
  refine ⟨?_, h2, ?_⟩
  · rw [h1]; rfl
  · rw [h1]; rfl

/-- Claim C10: calling the plain/CSV scanner directly on a location
whose protocol resolves to Unknown yields no row at all: the generator
raises `FileTypeNotSupportedYet` on the very first pull, and never
passes the Unknown sentinel through as an item. -/
theorem c10_scan_csv_unknown (env : Env) (uri : String)
    (h : FileIo.inferProtocol env uri = Protocols.UNKNOWN) :
    (FileIo.scan_csv env uri).items = []
    ∧ (FileIo.scan_csv env uri).err = some Err.fileTypeNotSupportedYet
    ∧ GenRun.pull (FileIo.scan_csv env uri) 0
        = PullRes.raiseErr Err.fileTypeNotSupportedYet := by
  have hg := get_unknown env uri h
  have h1 : FileIo.scan_csv env uri
      = ⟨[], [], some Err.fileTypeNotSupportedYet⟩ := by
    simp [FileIo.scan_csv, hg]
  rw [h1]
  exact ⟨rfl, rfl, rfl⟩

/-- Witness for C10 at a concrete unresolvable location. -/
theorem c10_witness :
    (FileIo.scan_csv env0 "nope").items = []
    ∧ (FileIo.scan_csv env0 "nope").err = some Err.fileTypeNotSupportedYet
    ∧ GenRun.pull (FileIo.scan_csv env0 "nope") 0
        = PullRes.raiseErr Err.fileTypeNotSupportedYet :=
  c10_scan_csv_unknown env0 "nope" (by decide)

/-- Claim C9: a scan call is total — it returns a lazy run, never an
immediate exception — and every failure surfaces only when the run is
pulled: pull k delivers the k-th item for every k below the item count,
the recorded failure is raised exactly on the pull after the last
delivered item, and later pulls deliver nothing (the closed generator
is not replayable; a failed scan restarts from the beginning). -/
theorem c9_lazy_failure_surface (env : Env) (uri : String) (n : Nat) :
    (∀ h : n < (FileIo.scan env uri).items.length,
        GenRun.pull (FileIo.scan env uri) n
          = PullRes.item ((FileIo.scan env uri).items.get ⟨n, h⟩))
    ∧ (∀ e : Err, GenRun.pull (FileIo.scan env uri) n = PullRes.raiseErr e →
        n = (FileIo.scan env uri).items.length
        ∧ (FileIo.scan env uri).err = some e)
    ∧ (∀ e : Err, (FileIo.scan env uri).err = some e →
        GenRun.pull (FileIo.scan env uri) ((FileIo.scan env uri).items.length)
          = PullRes.raiseErr e)
    ∧ ((FileIo.scan env uri).items.length < n →
        GenRun.pull (FileIo.scan env uri) n = PullRes.stopIteration) := by
  refine ⟨?_, ?_, ?_, ?_⟩
  · intro h
    simp [GenRun.pull, h]
  · intro e he
    by_cases h1 : n < (FileIo.scan env uri).items.length
    · rw [GenRun.pull, dif_pos h1] at he
      exact PullRes.noConfusion he
    · by_cases h2 : n = (FileIo.scan env uri).items.length
      · rcases hg : (FileIo.scan env uri).err with _ | e2
        · rw [GenRun.pull, dif_neg h1, if_pos h2, hg] at he
          exact PullRes.noConfusion he
        · rw [GenRun.pull, dif_neg h1, if_pos h2, hg] at he
          injection he with h3
          exact ⟨h2, by rw [h3]⟩
      · rw [GenRun.pull, dif_neg h1, if_neg h2] at he
        exact PullRes.noConfusion he
  · intro e hg
    simp [GenRun.pull, hg]
  · intro h
    have h1 : ¬ n < (FileIo.scan env uri).items.length := by omega
    have h2 : ¬ n = (FileIo.scan env uri).items.length := by omega
    simp [GenRun.pull, h1, h2]

/-- Witness for C9: on an unresolvable location the failure appears at
pull 0, after the zero delivered items. -/
theorem c9_witness :
    (0 : Nat) = (FileIo.scan env0 "x").items.length
    ∧ (FileIo.scan env0 "x").err = some Err.fileTypeNotSupportedYet :=
  (c9_lazy_failure_surface env0 "x" 0).2.1 Err.fileTypeNotSupportedYet rfl

theorem pyLinesAux_flush (l rest acc : List Char) :
    '\n' ∉ l →
    pyLinesAux (l ++ '\n' :: rest) acc
      = (acc.reverse ++ l ++ ['\n']) :: pyLinesAux rest [] := by
  induction l generalizing acc with
  | nil =>
      intro _
      simp [pyLinesAux]
  | cons c l ih =>
      intro h
      have hc : ¬ c = '\n' := fun hh => h (by rw [hh]; exact List.mem_cons_self _ _)
      have hl : '\n' ∉ l := fun hm => h (List.mem_cons_of_mem _ hm)
      simp only [List.cons_append, pyLinesAux, if_neg hc]
      simp only [List.append_eq]
      rw [ih (c :: acc) hl]
      simp

theorem pyLines_unlines (ls : List (List Char)) (h : ∀ l ∈ ls, '\n' ∉ l) :
    pyLines (unlines ls) = ls.map (fun l => l ++ ['\n']) := by
  induction ls with
  | nil => rfl
  | cons l ls ih =>
      have hl : '\n' ∉ l := h l (List.mem_cons_self _ _)
      have hls : ∀ x ∈ ls, '\n' ∉ x := fun x hx => h x (List.mem_cons_of_mem _ hx)
      have he : unlines (l :: ls) = l ++ '\n' :: unlines ls := by
        simp [unlines, List.flatMap_cons]
      unfold pyLines
      rw [he, pyLinesAux_flush l (unlines ls) [] hl]
      simp only [List.reverse_nil, List.nil_append, List.map_cons]
      congr 1
      exact ih hls

theorem stripNL_append_newline (l : List Char) (h : '\n' ∉ l) :
    stripNL (l ++ ['\n']) = l := by
  have h1 : stripNL ['\n'] = [] := rfl
  have h2 : stripNL l = l := by
    unfold stripNL
    apply List.filter_eq_self.mpr
    intro a ha
    simp only [decide_eq_true_eq]
    exact fun hh => h (hh ▸ ha)
  unfold stripNL at h1 h2 ⊢
  rw [List.filter_append, h1, h2, List.append_nil]

theorem scannedItems_unlines (ls : List (List Char)) (h : ∀ l ∈ ls, '\n' ∉ l) :
    (pyLines (unlines ls)).map (fun l => Item.str ⟨stripNL l⟩)
      = ls.map (fun l => Item.str ⟨l⟩) := by
  rw [pyLines_unlines ls h, List.map_map]
  refine List.map_congr_left fun l hl => ?_
  simp [Function.comp, stripNL_append_newline l (h l hl)]

theorem zipItems_unlines (members : List (String × List (List Char)))
    (hm : ∀ m ∈ members, ∀ l ∈ m.2, '\n' ∉ l) :
    (members.map (fun m => (m.1, unlines m.2))).flatMap
        (fun m => (pyLines m.2).map (fun l => Item.str ⟨stripNL l⟩))
      = (members.flatMap (fun m => m.2)).map (fun l => Item.str ⟨l⟩) := by
  induction members with
  | nil => rfl
  | cons m ms ih =>
      have h1 : ∀ l ∈ m.2, '\n' ∉ l := hm m (List.mem_cons_self _ _)
      have h2 : ∀ x ∈ ms, ∀ l ∈ x.2, '\n' ∉ l :=
        fun x hx => hm x (List.mem_cons_of_mem _ hx)
      simp only [List.map_cons, List.flatMap_cons, List.map_append]
      rw [scannedItems_unlines m.2 h1, ih h2]

/-- Claim C6: a supported compressed source (gzip, bzip2, xz, or a zip
archive) whose decompressed text consists of N newline-terminated lines
is scanned into exactly N items, one per line, in original order (for
zip: across all members in archive-listing order), each item carrying
no newline characters. -/
theorem c6_compressed_scanners (env : Env) (uri : String)
    (ls : List (List Char)) (h : ∀ l ∈ ls, '\n' ∉ l) :
    (env.gzipText uri = Except.ok (unlines ls) →
      (FileIo.scan_csv_gzip env uri).items = ls.map (fun l => Item.str ⟨l⟩)
      ∧ (FileIo.scan_csv_gzip env uri).err = none)
    ∧ (env.bz2Text uri = Except.ok (unlines ls) →
      (FileIo.scan_csv_bzip2 env uri).items = ls.map (fun l => Item.str ⟨l⟩)
      ∧ (FileIo.scan_csv_bzip2 env uri).err = none)
    ∧ (env.xzText uri = Except.ok (unlines ls) →
      (FileIo.scan_csv_xz env uri).items = ls.map (fun l => Item.str ⟨l⟩)
      ∧ (FileIo.scan_csv_xz env uri).err = none)
    ∧ (∀ members : List (String × List (List Char)),
        (∀ m ∈ members, ∀ l ∈ m.2, '\n' ∉ l) →
        env.zipArchive uri
          = Except.ok (members.map (fun m => (m.1, unlines m.2))) →
        (FileIo.scan_csv_zip env uri).items
          = (members.flatMap (fun m => m.2)).map (fun l => Item.str ⟨l⟩)
        ∧ (FileIo.scan_csv_zip env uri).err = none) := by
  refine ⟨fun hg => ?_, fun hg => ?_, fun hg => ?_, fun members hm hz => ?_⟩
  · simp only [FileIo.scan_csv_gzip, hg]
    exact ⟨scannedItems_unlines ls h, trivial⟩
  · simp only [FileIo.scan_csv_bzip2, hg]
    exact ⟨scannedItems_unlines ls h, trivial⟩
  · simp only [FileIo.scan_csv_xz, hg]
    exact ⟨scannedItems_unlines ls h, trivial⟩
  · simp only [FileIo.scan_csv_zip, hz]
    exact ⟨zipItems_unlines members hm, trivial⟩

/-- Witness for C6 at concrete fixtures: a two-line gzip text and a
two-member zip archive with three lines in total. -/
theorem c6_witness :
    (FileIo.scan_csv_gzip envC6 "f.gz").items = [Item.str "a", Item.str "bc"]
    ∧ (FileIo.scan_csv_zip envC6 "f.zip").items
        = [Item.str "x", Item.str "y", Item.str "z"]
    ∧ (FileIo.scan_csv_bzip2 envC6 "f.bz2").err = none
    ∧ (FileIo.scan_csv_xz envC6 "f.xz").err = none := by
  refine ⟨?_, ?_, ?_, ?_⟩
  · have h := (c6_compressed_scanners envC6 "f.gz" [['a'], ['b', 'c']]
      (by decide)).1 rfl
    rw [h.1]
    rfl
  · have h := (c6_compressed_scanners envC6 "f.zip" [['a'], ['b', 'c']]
      (by decide)).2.2.2 [("m1", [['x']]), ("m2", [['y'], ['z']])]
      (by decide) rfl
    rw [h.1]
    rfl
  · exact ((c6_compressed_scanners envC6 "f.bz2" [['a'], ['b', 'c']]
      (by decide)).2.1 rfl).2
  · exact ((c6_compressed_scanners envC6 "f.xz" [['a'], ['b', 'c']]
      (by decide)).2.2.1 rfl).2

theorem cycleTake_length (n : Nat) : (cycleTake n).length = n := by
  simp [cycleTake]

theorem progress_percents {α : Type} (l : List α) :
    (FileIo.progress l true).2
      = (List.range l.length).map
          (fun i : Nat => 100 * (((i : ℚ) + 1) / (l.length : ℚ))) := by
  have h0 : (FileIo.progress l true).2
      = l.enum.map (fun iv => 100 * (((iv.1 : ℚ) + 1) / (l.length : ℚ))) := rfl
  have h : (fun iv : Nat × α => 100 * (((iv.1 : ℚ) + 1) / (l.length : ℚ)))
      = (fun i : Nat => 100 * (((i : ℚ) + 1) / (l.length : ℚ))) ∘ Prod.fst := rfl
  rw [h0, h, ← List.map_map, List.enum_map_fst]

/-- Claim C8: the progress relay is an identity transform on items in
both modes — same items, same order, same count — and in precise mode
the emitted percentage sequence is `100 * (index + 1) / total`,
monotonically non-decreasing and ending at 100 for a nonempty input. -/
theorem c8_progress_relay {α : Type} (l : List α) (precise : Bool) :
    (FileIo.progress l precise).1 = l
    ∧ (precise = true →
        (FileIo.progress l precise).2
          = (List.range l.length).map
              (fun i : Nat => 100 * (((i : ℚ) + 1) / (l.length : ℚ))))
    ∧ List.Chain' (fun a b => a ≤ b) (FileIo.progress l precise).2
    ∧ (precise = true → l ≠ [] →
        (FileIo.progress l precise).2.getLast? = some 100) := by
  refine ⟨?_, ?_, ?_, ?_⟩
  · cases precise
    · have h : (FileIo.progress l false).1
          = (l.zip (cycleTake l.length)).map Prod.fst := rfl
      rw [h]
      exact List.map_fst_zip l _ (le_of_eq (cycleTake_length l.length).symm)
    · have h : (FileIo.progress l true).1 = l.enum.map Prod.snd := rfl
      rw [h, List.enum_map_snd]
  · intro hp
    subst hp
    exact progress_percents l
  · cases precise
    · have h : (FileIo.progress l false).2 = ([] : List ℚ) := rfl
      rw [h]
      exact List.chain'_nil
    · rw [progress_percents]
      rcases Nat.eq_zero_or_pos l.length with h0 | hpos
      · rw [h0]
        simp
      · rw [List.chain'_iff_get]
        intro i hi
        simp only [List.get_eq_getElem, List.getElem_map, List.getElem_range]
        have hn : (0 : ℚ) < (l.length : ℚ) := by exact_mod_cast hpos
        have hnum : ((i : ℚ) + 1) ≤ (((i + 1 : ℕ) : ℚ) + 1) := by
          push_cast
          linarith
        have hdiv := (div_le_div_iff_of_pos_right hn).mpr hnum
        linarith
  · intro hp hne
    subst hp
    rw [progress_percents]
    obtain ⟨k, hk⟩ : ∃ k, l.length = k + 1 :=
      ⟨l.length - 1, by
        have : l.length ≠ 0 := fun hh => hne (List.length_eq_zero.mp hh)
        omega⟩
    rw [hk, List.range_succ, List.map_append, List.map_cons, List.map_nil,
      List.getLast?_concat]
    have hknz : ((k : ℚ) + 1) ≠ 0 := by positivity
    congr 1
    push_cast
    field_simp

/-- Witness for C8 on a ten-item sequence. -/
theorem c8_witness :
    (FileIo.progress [0, 1, 2, 3, 4, 5, 6, 7, 8, 9] true).1
        = [0, 1, 2, 3, 4, 5, 6, 7, 8, 9]
    ∧ (FileIo.progress ([0, 1, 2, 3, 4, 5, 6, 7, 8, 9] : List ℕ) false).1
        = [0, 1, 2, 3, 4, 5, 6, 7, 8, 9]
    ∧ (FileIo.progress ([0, 1, 2, 3, 4, 5, 6, 7, 8, 9] : List ℕ) true).2.getLast?
        = some 100 :=
  ⟨(c8_progress_relay [0, 1, 2, 3, 4, 5, 6, 7, 8, 9] true).1,
   (c8_progress_relay [0, 1, 2, 3, 4, 5, 6, 7, 8, 9] false).1,
   (c8_progress_relay [0, 1, 2, 3, 4, 5, 6, 7, 8, 9] true).2.2.2 rfl
     (by decide)⟩

theorem inferFileType_events (env : Env) (uri : String) (b : Bool) :
    (FileIo.inferFileTypeFromUri env uri b).1 = (FileIo.get env uri).1 := by
  unfold FileIo.inferFileTypeFromUri
  rcases hg : FileIo.get env uri with ⟨ev, r⟩
  rcases r with e | g
  · cases e <;> simp [hg]
  · cases g with
    | content bts => cases hc : env.classify bts b <;> simp [hg, hc]
    | unknownSentinel => simp [hg]

theorem scan_csv_events (env : Env) (uri : String) :
    (FileIo.scan_csv env uri).events = (FileIo.get env uri).1 := by
  unfold FileIo.scan_csv
  rcases hg : FileIo.get env uri with ⟨ev, r⟩
  rcases r with e | g
  · simp [hg]
  · cases g <;> simp [hg]

theorem scan_csv_gzip_events (env : Env) (uri : String) :
    (FileIo.scan_csv_gzip env uri).events = [Access.loc uri] := by
  unfold FileIo.scan_csv_gzip
  cases env.gzipText uri <;> simp

theorem scan_csv_bzip2_events (env : Env) (uri : String) :
    (FileIo.scan_csv_bzip2 env uri).events = [Access.loc uri] := by
  unfold FileIo.scan_csv_bzip2
  cases env.bz2Text uri <;> simp

theorem scan_csv_xz_events (env : Env) (uri : String) :
    (FileIo.scan_csv_xz env uri).events = [Access.loc uri] := by
  unfold FileIo.scan_csv_xz
  cases env.xzText uri <;> simp

theorem scan_csv_zip_events (env : Env) (uri : String) :
    (FileIo.scan_csv_zip env uri).events = [Access.loc uri] := by
  unfold FileIo.scan_csv_zip
  cases env.zipArchive uri <;> simp

theorem dispatchTag_events_mem (env : Env) (uri : String) (t : String)
    (a : Access) :
    a ∈ (FileIo.dispatchTag env uri t).events →
    a ∈ (FileIo.get env uri).1 ∨ a = Access.loc uri := by
  intro ha
  unfold FileIo.dispatchTag at ha
  split_ifs at ha
  · rw [scan_csv_events] at ha
    exact Or.inl ha
  · rw [scan_csv_gzip_events] at ha
    exact Or.inr (by simpa using ha)
  · rw [scan_csv_zip_events] at ha
    exact Or.inr (by simpa using ha)
  · rw [scan_csv_bzip2_events] at ha
    exact Or.inr (by simpa using ha)
  · rw [scan_csv_xz_events] at ha
    exact Or.inr (by simpa using ha)
  · simp at ha

theorem scanTry_events_mem (env : Env) (uri : String) (a : Access) :
    a ∈ (FileIo.scanTry env uri).events →
    a ∈ (FileIo.get env uri).1 ∨ a = Access.loc uri := by
  intro ha
  unfold FileIo.scanTry at ha
  rcases hi : FileIo.inferFileTypeFromUri env uri false with ⟨ev, r⟩
  have hev : ev = (FileIo.get env uri).1 := by
    have h := inferFileType_events env uri false
    rw [hi] at h
    exact h
  rcases r with e | t
  · rw [hi] at ha
    exact Or.inl (hev ▸ ha)
  · rw [hi] at ha
    simp only [GenRun.withPre] at ha
    rcases List.mem_append.mp ha with h | h
    · exact Or.inl (hev ▸ h)
    · exact dispatchTag_events_mem env uri t a h

theorem scan_events_mem (env : Env) (uri : String) (a : Access) :
    a ∈ (FileIo.scan env uri).events →
    a ∈ (FileIo.get env uri).1 ∨ a = Access.loc uri := by
  intro ha
  by_cases hdir : (FileIo.scanTry env uri).err = some Err.isADirectoryError
  · rw [scan_of_dir env uri hdir] at ha
    rcases List.mem_append.mp ha with h | h
    · exact scanTry_events_mem env uri a h
    · exact Or.inr (by simpa using h)
  · rw [scan_of_no_dir env uri hdir] at ha
    exact scanTry_events_mem env uri a ha

/-- Claim C4 (amended): a location classified Local is fetched with the
local strategy only — every content access of the whole scan is a local
read of that location.  A location classified Remote and dispatched to
the plain/CSV scanner is fetched with the HTTP strategy only (given
that HTTP reads never raise the directory error, as real transports do
not).  But when a Remote location's inferred tag selects a
compressed-container scanner, the dispatcher mixes the strategies: the
inference fetch is an HTTP GET while the scanner performs a local open
of the URL string.  (The original unconditional no-mixing invariant is
refuted by the counterexample.) -/
theorem c4_fetch_strategy (env : Env) (uri : String) :
    (FileIo.inferProtocol env uri = Protocols.FILE →
      ∀ a ∈ (FileIo.scan env uri).events, a = Access.loc uri)
    ∧ (FileIo.inferProtocol env uri = Protocols.HTTP →
      ∀ (ev : List Access) (t : String),
      FileIo.inferFileTypeFromUri env uri false = (ev, Except.ok t) →
      (t = "CSV" ∨ t = "PLAIN") →
      (∀ u, env.httpRead u ≠ Except.error Err.isADirectoryError) →
      ∀ a ∈ (FileIo.scan env uri).events, a = Access.http uri)
    ∧ (FileIo.inferProtocol env uri = Protocols.HTTP →
      ∀ (ev : List Access) (t : String),
      FileIo.inferFileTypeFromUri env uri false = (ev, Except.ok t) →
      t ∈ (["GZP", "ZIP", "BZ2", "LXZ"] : List String) →
      Access.http uri ∈ (FileIo.scan env uri).events
      ∧ Access.loc uri ∈ (FileIo.scan env uri).events) := by
  refine ⟨fun hp a ha => ?_, fun hp ev t hi htag hnodir a ha => ?_,
    fun hp ev t hi htag => ?_⟩
  · rcases scan_events_mem env uri a ha with h | h
    · rw [get_file env uri hp] at h
      simpa using h
    · exact h
  · have hev : ev = [Access.http uri] := by
      have h := inferFileType_events env uri false
      rw [hi, get_http env uri hp] at h
      simpa using h
    have hd : FileIo.dispatchTag env uri t = FileIo.scan_csv env uri := by
      rcases htag with h1 | h1 <;> simp [FileIo.dispatchTag, h1]
    have hs : FileIo.scanTry env uri
        = GenRun.withPre ev (FileIo.scan_csv env uri) := by
      rw [scanTry_of_ok env uri ev t hi, hd]
    have hgg := get_http env uri hp
    have hcsv : (FileIo.scan_csv env uri).err ≠ some Err.isADirectoryError := by
      unfold FileIo.scan_csv
      rcases hr : env.httpRead uri with e | bts
      · have hg2 : FileIo.get env uri = ([Access.http uri], Except.error e) := by
          rw [hgg, hr]
          rfl
        simp only [hg2]
        intro hh
        apply hnodir uri
        rw [hr]
        simp only [Option.some.injEq] at hh
        rw [hh]
      · have hg2 : FileIo.get env uri
            = ([Access.http uri], Except.ok (GetRes.content bts)) := by
          rw [hgg, hr]
          rfl
        simp [hg2]
    have hscan : FileIo.scan env uri
        = GenRun.withPre ev (FileIo.scan_csv env uri) := by
      rw [scan_of_no_dir env uri (by rw [hs]; simpa [GenRun.withPre] using hcsv),
        hs]
    rw [hscan] at ha
    simp only [GenRun.withPre] at ha
    rcases List.mem_append.mp ha with h | h
    · rw [hev] at h
      simpa using h
    · rw [scan_csv_events env uri, get_http env uri hp] at h
      simpa using h
  · have hev : ev = [Access.http uri] := by
      have h := inferFileType_events env uri false
      rw [hi, get_http env uri hp] at h
      simpa using h
    have hd : (FileIo.dispatchTag env uri t).events = [Access.loc uri] := by
      simp only [List.mem_cons, List.not_mem_nil, or_false] at htag
      rcases htag with h1 | h1 | h1 | h1 <;> subst h1
      · exact scan_csv_gzip_events env uri
      · exact scan_csv_zip_events env uri
      · exact scan_csv_bzip2_events env uri
      · exact scan_csv_xz_events env uri
    have hs : FileIo.scanTry env uri
        = GenRun.withPre ev (FileIo.dispatchTag env uri t) :=
      scanTry_of_ok env uri ev t hi
    by_cases hdir : (FileIo.scanTry env uri).err = some Err.isADirectoryError
    · rw [scan_of_dir env uri hdir]
      constructor
      · exact List.mem_append_left _ (by rw [hs]; simp [GenRun.withPre, hev])
      · exact List.mem_append_right _ (by simp)
    · rw [scan_of_no_dir env uri hdir, hs]
      constructor
      · simp [GenRun.withPre, hev]
      · simp [GenRun.withPre, hd]

/-- Claim C4 counterexample: scanning the remote location
`http://h/f.gz` (classified Remote, inferred gzip) performs both an
HTTP GET and a local open within the single scan — the two fetch
strategies are mixed, refuting the no-mixing invariant as stated. -/
theorem c4_counterexample :
    FileIo.inferProtocol envC4 "http://h/f.gz" = Protocols.HTTP
    ∧ Access.http "http://h/f.gz" ∈ (FileIo.scan envC4 "http://h/f.gz").events
    ∧ Access.loc "http://h/f.gz" ∈ (FileIo.scan envC4 "http://h/f.gz").events
    ∧ ¬ (∀ a ∈ (FileIo.scan envC4 "http://h/f.gz").events,
          a = Access.http "http://h/f.gz") := by
  refine ⟨by decide, by decide, by decide, fun hall => ?_⟩
  have h := hall (Access.loc "http://h/f.gz") (by decide)
  exact absurd h (by decide)

/-- Witness for C4: a Local directory scan touches only the local
strategy, and the remote-gzip environment exhibits the mixed pair. -/
theorem c4_witness :
    (∀ a ∈ (FileIo.scan envDir "d").events, a = Access.loc "d")
    ∧ (Access.http "http://h/f.gz" ∈ (FileIo.scan envC4 "http://h/f.gz").events
       ∧ Access.loc "http://h/f.gz"
          ∈ (FileIo.scan envC4 "http://h/f.gz").events) :=
  ⟨(c4_fetch_strategy envDir "d").1 (by decide),
   (c4_fetch_strategy envC4 "http://h/f.gz").2.2 (by decide)
     [Access.http "http://h/f.gz"] "GZP" rfl (by decide)⟩
